import Mathlib

/-!
Shallow embedding of the tool-calling agent core of `src/travel.py`
(class `BaseAgent`): the invocation-marker scanner
(`_parse_function_calls`, regex `CALL_FUNCTION:\s*(\w+)\((.*?)\)` with
DOTALL), the two-tier parameter parser (`_parse_parameters`: a literal
`eval(f"dict(...)")` attempt followed by a permissive comma-split
fallback), the executor (`_execute_function`) with its append-only call
history, and the iteration-bounded conversation loop (`query`).

Python exceptions are modelled with `Option`/`Except`: an operation that
can raise returns `none`/`Except.error`, and each `try/except` site in
the source is an explicit `match` on that result, so a function whose
Lean type is total corresponds to Python code from which no exception
escapes.  Machine-level details that no claim touches (the JSON
rendering of results folded back into the transcript, wall-clock
timestamps) are abstracted: rendering is a simple printer and the
timestamp is an explicit `Nat` argument.
-/

set_option autoImplicit false

/-- Python `\s` (ASCII range): the whitespace characters recognised by
the regex `\s*` and by `str.strip()` in the source. -/
def isSpaceChar (c : Char) : Bool :=
  c = ' ' || c = '\t' || c = '\n' || c = '\r' || c = '\x0b' || c = '\x0c'

/-- Python `\w` (ASCII range): letters, digits and underscore, as used by
the `(\w+)` group of the call-marker regex. -/
def isWordChar (c : Char) : Bool :=
  c.isAlphanum || c = '_'

/-- The double-quote character (written via its code point to keep the
parser source readable). -/
def dqC : Char := Char.ofNat 34

/-- The single-quote character. -/
def sqC : Char := Char.ofNat 39

/-- Drop leading whitespace, as `\s*` / the leading half of `strip()`. -/
def dropSpacesL (cs : List Char) : List Char := cs.dropWhile isSpaceChar

/-- Python `str.strip()`: drop whitespace from both ends. -/
def trimL (cs : List Char) : List Char :=
  ((cs.dropWhile isSpaceChar).reverse.dropWhile isSpaceChar).reverse

/-- Python `str.strip(c)` for a single character `c`: repeatedly drop
that character from both ends. -/
def stripCharL (q : Char) (cs : List Char) : List Char :=
  ((cs.dropWhile (fun c => c == q)).reverse.dropWhile (fun c => c == q)).reverse

/-- Dynamically-typed argument values produced by parameter parsing:
strings, integers, booleans and lists, the literal kinds the source's
`eval`-based parser is exercised with (spec section 3, ParsedCall). -/
inductive Value where
  | str : String → Value
  | int : Int → Value
  | bool : Bool → Value
  | list : List Value → Value

/-- A parsed argument mapping, insertion-ordered like a Python dict. -/
abbrev Dict := List (String × Value)

/-- Project a `Value` to its string payload, if it is a string. -/
def Value.asStr : Value → Option String
  | Value.str s => some s
  | _ => none

/-! ### The call-marker scanner (`BaseAgent._parse_function_calls`) -/

/-- The literal marker token of the regex `CALL_FUNCTION:\s*(\w+)\((.*?)\)`. -/
def markerLit : List Char := ("CALL_FUNCTION:").data

/-- Match a literal prefix, returning the remainder on success. -/
def dropPrefixL : List Char → List Char → Option (List Char)
  | [], cs => some cs
  | _ :: _, [] => none
  | p :: ps, c :: cs => if p = c then dropPrefixL ps cs else none

/-- The non-greedy group `(.*?)\)` under DOTALL: capture everything up to
the first `)` (newlines included), failing if no `)` follows. -/
def takeUntilParen : List Char → Option (List Char × List Char)
  | [] => none
  | c :: rest =>
    if c = ')' then some ([], rest)
    else (takeUntilParen rest).map (fun p => (c :: p.1, p.2))

/-- Attempt the whole regex `CALL_FUNCTION:\s*(\w+)\((.*?)\)` at the head
of the text: the literal marker, greedy whitespace, a nonempty word
(no backtracking can help, since word and space characters are
disjoint and `(` is neither), an opening parenthesis, and the
non-greedy capture up to the first `)`.  Returns the function name,
the raw captured argument text, and the remainder after the match. -/
def tryMatch (cs : List Char) : Option (String × List Char × List Char) :=
  match dropPrefixL markerLit cs with
  | none => none
  | some cs1 =>
    let p := (dropSpacesL cs1).span isWordChar
    match p.1 with
    | [] => none
    | w :: ws =>
      match p.2 with
      | [] => none
      | c :: cs4 =>
        if c = '(' then
          match takeUntilParen cs4 with
          | none => none
          | some (args, rest) => some (String.mk (w :: ws), args, rest)
        else none

/-- `re.findall` semantics: scan left to right, at each position try the
pattern; on success record the groups and continue after the match,
on failure advance one character.  Fuel-indexed (initial fuel = text
length) so the definition is structurally recursive and computable by
the kernel; one unit of fuel is spent per scan position and every step
consumes at least one character, so full fuel is always sufficient. -/
def scanCalls : Nat → List Char → List (String × List Char)
  | 0, _ => []
  | fuel + 1, cs =>
    match cs with
    | [] => []
    | _ :: rest =>
      match tryMatch cs with
      | some (name, args, rest2) => (name, args) :: scanCalls fuel rest2
      | none => scanCalls fuel rest

/-- All `(function name, raw argument text)` matches in a text, in order. -/
def findCalls (text : String) : List (String × List Char) :=
  scanCalls text.data.length text.data

/-! ### The primary parameter parser (the `eval(f"dict(...)")` attempt)

The source delegates the primary parse to Python's `eval` on
`dict(<argument text>)`.  The embedding implements the literal fragment
of that expression grammar that the agent's wire format uses (spec
sections 4.2 and 6): comma-separated `key=value` pairs whose values are
single- or double-quoted strings (without escape sequences), integer
literals, `True`/`False`, and bracketed lists of those scalars.
Argument texts outside this literal fragment are treated as parse
failures (`none`), which models the `except:` branch of the source. -/

/-- Decimal digits to a natural number. -/
def digitsToNat (ds : List Char) : Nat :=
  ds.foldl (fun acc c => acc * 10 + (c.toNat - 48)) 0

/-- Parse the body of a quoted string up to the closing quote `q`.
Escape sequences are outside the modelled literal fragment. -/
def parseQuoted (q : Char) : List Char → Option (List Char × List Char)
  | [] => none
  | c :: rest =>
    if c = q then some ([], rest)
    else if c = '\\' then none
    else (parseQuoted q rest).map (fun p => (c :: p.1, p.2))

/-- Parse one scalar literal: quoted string, (possibly negative) integer,
or `True`/`False`. -/
def parseScalar (cs : List Char) : Option (Value × List Char) :=
  match cs with
  | [] => none
  | c :: rest =>
    if c = dqC then (parseQuoted dqC rest).map (fun p => (Value.str (String.mk p.1), p.2))
    else if c = sqC then (parseQuoted sqC rest).map (fun p => (Value.str (String.mk p.1), p.2))
    else if c = '-' then
      let p := rest.span (fun d => d.isDigit)
      if p.1.isEmpty then none
      else some (Value.int (-(digitsToNat p.1 : Int)), p.2)
    else if c.isDigit then
      let p := cs.span (fun d => d.isDigit)
      some (Value.int (digitsToNat p.1 : Int), p.2)
    else
      let p := cs.span isWordChar
      if p.1 = ("True").data then some (Value.bool true, p.2)
      else if p.1 = ("False").data then some (Value.bool false, p.2)
      else none

/-- Parse the items of a bracketed list after the opening `[`, up to and
including the closing `]`.  A trailing comma before `]` is allowed,
as in Python.  Fuel-indexed for structural recursion. -/
def parseItems : Nat → List Char → Option (List Value × List Char)
  | 0, _ => none
  | fuel + 1, cs =>
    match dropSpacesL cs with
    | [] => none
    | c :: rest =>
      if c = ']' then some ([], rest)
      else
        match parseScalar (c :: rest) with
        | none => none
        | some (v, r) =>
          match dropSpacesL r with
          | [] => none
          | c2 :: rest2 =>
            if c2 = ',' then
              match parseItems fuel rest2 with
              | none => none
              | some (vs, rr) => some (v :: vs, rr)
            else if c2 = ']' then some ([v], rest2)
            else none

/-- Parse one value: a bracketed list of scalars or a scalar. -/
def parseValue (cs : List Char) : Option (Value × List Char) :=
  match dropSpacesL cs with
  | [] => none
  | c :: rest =>
    if c = '[' then (parseItems (rest.length + 1) rest).map (fun p => (Value.list p.1, p.2))
    else parseScalar (c :: rest)

/-- Parse the keyword-argument sequence `key=value, key=value, ...`.
Keys are Python identifiers; a repeated key is a `SyntaxError` for
keyword arguments, hence a failure.  A trailing comma is allowed. -/
def parsePairs : Nat → List Char → Dict → Option Dict
  | 0, _, _ => none
  | fuel + 1, cs, acc =>
    let p := (dropSpacesL cs).span isWordChar
    match p.1 with
    | [] => none
    | k :: ks =>
      if k.isAlpha || k = '_' then
        let key := String.mk (k :: ks)
        if acc.any (fun e => e.1 == key) then none
        else
          match dropSpacesL p.2 with
          | [] => none
          | c :: cs2 =>
            if c = '=' then
              match parseValue cs2 with
              | none => none
              | some (v, r) =>
                match dropSpacesL r with
                | [] => some (acc ++ [(key, v)])
                | c2 :: cs3 =>
                  if c2 = ',' then
                    if (dropSpacesL cs3).isEmpty then some (acc ++ [(key, v)])
                    else parsePairs fuel cs3 (acc ++ [(key, v)])
                  else none
            else none
      else none

/-- The primary parse: the `eval(f"dict(<text>)")` attempt of
`_parse_parameters`, restricted to the literal fragment described
above.  `none` models the `eval` call raising. -/
def evalDict (cs : List Char) : Option Dict :=
  parsePairs (cs.length + 1) cs []

/-! ### The permissive fallback of `_parse_parameters` -/

/-- Python `str.split(',')`: split at every comma, keeping empty pieces. -/
def splitOnComma : List Char → List (List Char)
  | [] => [[]]
  | c :: rest =>
    let r := splitOnComma rest
    if c = ',' then [] :: r
    else
      match r with
      | [] => [[c]]
      | h :: t => (c :: h) :: t

/-- Python `str.split('=', 1)`: split at the first `=`; `none` when the
text contains no `=` (the `if '=' in pair` guard). -/
def splitFirstEq : List Char → Option (List Char × List Char)
  | [] => none
  | c :: rest =>
    if c = '=' then some ([], rest)
    else (splitFirstEq rest).map (fun p => (c :: p.1, p.2))

/-- The `eval(value)` attempt on a bracket-delimited fragment in the
fallback: a full literal value with nothing but whitespace after it,
`none` modelling the inner `except` branch. -/
def evalListLit (cs : List Char) : Option Value :=
  match parseValue cs with
  | none => none
  | some (v, r) => if (dropSpacesL r).isEmpty then some v else none

/-- Python `params[key] = value`: replace an existing key in place, else
append. -/
def dictInsert (d : Dict) (k : String) (v : Value) : Dict :=
  if d.any (fun e => e.1 == k) then d.map (fun e => if e.1 == k then (k, v) else e)
  else d ++ [(k, v)]

/-- One iteration of the fallback loop body: skip pieces without `=`,
split the rest at the first `=`, strip whitespace and surrounding
quote characters from the value, and re-parse bracketed fragments. -/
def fallbackStep (params : Dict) (pair : List Char) : Dict :=
  match splitFirstEq pair with
  | none => params
  | some (k, v0) =>
    let key := String.mk (trimL k)
    let value := stripCharL sqC (stripCharL dqC (trimL v0))
    let isBracketed :=
      match value with
      | c :: _ => c = '[' && (value.getLast? == some ']')
      | [] => false
    if isBracketed then
      match evalListLit value with
      | some v => dictInsert params key v
      | none => dictInsert params key (Value.str (String.mk value))
    else dictInsert params key (Value.str (String.mk value))

/-- The permissive fallback pass of `_parse_parameters` (the `except:`
branch, src/travel.py lines 72-88): split on every comma, strip each
piece, then process each `key=value` piece. -/
def fallbackParse (cs : List Char) : Dict :=
  ((splitOnComma cs).map trimL).foldl fallbackStep []

/-- `BaseAgent._parse_parameters` (src/travel.py lines 62-90) on the raw
captured argument text: empty-after-strip returns the empty mapping;
otherwise the primary literal parse is authoritative, and on its
failure the permissive fallback runs.  Both tiers are total, so the
whole parse never raises. -/
def parseParams (cs : List Char) : Dict :=
  if (trimL cs).isEmpty then []
  else
    match evalDict cs with
    | some d => d
    | none => fallbackParse cs

/-- String-level wrapper for `_parse_parameters`. -/
def parseParametersS (s : String) : Dict := parseParams s.data

/-- A parsed invocation request: function name plus argument mapping. -/
structure ParsedCall where
  function : String
  parameters : Dict

/-- `BaseAgent._parse_function_calls` (src/travel.py lines 49-60): find
all marker matches, keep only names registered in the tool registry,
and parse each raw argument text. -/
def parseFunctionCalls (toolNames : List String) (text : String) : List ParsedCall :=
  (findCalls text).filterMap (fun m =>
    if toolNames.contains m.1 then some (ParsedCall.mk m.1 (parseParams m.2)) else none)

example : parseFunctionCalls (["add"]) ("CALL_FUNCTION: add(a=\"1\", b=[\"x\",\"y\"])") =
    [ParsedCall.mk ("add") [("a", Value.str ("1")),
      ("b", Value.list [Value.str ("x"), Value.str ("y")])]] := rfl

example : parseParametersS ("a=1, b=") = [("a", Value.str ("1")), ("b", Value.str (""))] := rfl

example : parseFunctionCalls (["add"]) ("CALL_FUNCTION: foo(x=\"1\")") = [] := rfl

example : parseParametersS ("a=, b=[\"x\",\"y\"]") =
    [("a", Value.str ("")), ("b", Value.str ("[\"x"))] := rfl

example : findCalls ("CALL_FUNCTION: f(a=\"(x)\")") = [(("f" : String), ("a=\"(x").data)] := rfl

/-! ### The executor (`BaseAgent._execute_function`) and the agent state -/

/-- One entry of `self.history["calls"]` (src/travel.py lines 99-104 and
108-113): exactly one of `result` / `error` is populated, matching the
two distinct dict shapes the source appends.  `error` holds the
message of the structured error result dict. -/
structure CallRecord where
  function : String
  parameters : Dict
  result : Option Value
  error : Option String
  timestamp : Nat

/-- The agent's mutable history `self.history` with its two append-only
lists `"calls"` and `"responses"`; it persists across `query` calls. -/
structure AgentState where
  calls : List CallRecord
  responses : List String

/-- The value returned by `_execute_function`: either the tool's result,
or the structured error dict, carried here as its message string. -/
inductive ExecResult where
  | ok : Value → ExecResult
  | err : String → ExecResult

/-- A registered tool: its `__name__`, its docstring, the rendered
parameter signature produced by `inspect.signature` (supplied as data,
since runtime introspection has no shallow counterpart), and the
callable itself.  A tool body that raises is modelled by
`Except.error` carrying `str(e)`. -/
structure Tool where
  name : String
  description : String
  paramSig : List String
  fn : Dict → Except String Value

/-- Registry lookup.  The source stores tools in a dict keyed by
`__name__`; names are unique in the repository, so first-match lookup
on a list is faithful. -/
def findTool (tools : List Tool) (name : String) : Option Tool :=
  tools.find? (fun t => t.name == name)

/-- `BaseAgent._execute_function` (src/travel.py lines 92-114).  An
unknown name returns the missing-name error dict at once (before the
`try` block, so nothing is appended to the history).  A tool that
raises is caught and converted to the structured error result; in the
success and caught-failure branches exactly one `CallRecord` is
appended before the result is returned.  `now` is the
`datetime.now()` timestamp of the appended record. -/
def executeFunction (tools : List Tool) (now : Nat) (st : AgentState)
    (name : String) (args : Dict) : ExecResult × AgentState :=
  match findTool tools name with
  | none => (ExecResult.err ("Function '" ++ name ++ "' not found"), st)
  | some t =>
    match t.fn args with
    | Except.ok r =>
      (ExecResult.ok r,
        AgentState.mk (st.calls ++ [CallRecord.mk name args (some r) none now]) st.responses)
    | Except.error e =>
      (ExecResult.err ("Error executing " ++ name ++ ": " ++ e),
        AgentState.mk
          (st.calls ++ [CallRecord.mk name args none (some ("Error executing " ++ name ++ ": " ++ e)) now])
          st.responses)

/-! ### The conversation loop (`BaseAgent.query`) -/

/-- `BaseAgent._get_function_descriptions` for one tool (src/travel.py
lines 165-178), with the introspected signature carried as data. -/
def describeTool (t : Tool) : String :=
  "Function: " ++ t.name ++ "(" ++ String.intercalate (", ") t.paramSig ++ ")\nDescription: " ++
    (if t.description = "" then "No description available" else t.description)

/-- The full `Available Functions` block: per-tool blocks joined by a
blank line, in registration order. -/
def getFunctionDescriptions (tools : List Tool) : String :=
  String.intercalate ("\n\n") (tools.map describeTool)

/-- Scalar rendering used in fold-back text (Python `str(result)` /
`json.dumps`); the exact JSON layout is abstracted, as this text only
feeds the opaque model. -/
def renderScalar : Value → String
  | Value.str s => s
  | Value.int n => toString n
  | Value.bool b => if b then "True" else "False"
  | Value.list _ => ""

/-- Rendering of a result value for fold-back text (abstracted). -/
def renderValue : Value → String
  | Value.list vs => "[" ++ String.intercalate (", ") (vs.map renderScalar) ++ "]"
  | v => renderScalar v

/-- Rendering of the executor's result: `json.dumps` of the error dict
for failures (layout abstracted), the value rendering otherwise. -/
def renderResult : ExecResult → String
  | ExecResult.ok v => renderValue v
  | ExecResult.err m => "\x7b\"error\": \"" ++ m ++ "\"\x7d"

/-- The loop body of src/travel.py lines 146-149: execute each parsed
call in order, threading the history, and collect the rendered
`Function ... returned: ...` lines. -/
def executeCalls (tools : List Tool) (now : Nat) :
    AgentState → List ParsedCall → List String × AgentState
  | st, [] => ([], st)
  | st, c :: rest =>
    let pr := executeFunction tools now st c.function c.parameters
    let line := "Function " ++ c.function ++ " returned: " ++ renderResult pr.1
    let prs := executeCalls tools now pr.2 rest
    (line :: prs.1, prs.2)

/-- The fixed instruction block of the prompt template. -/
def instructionsBlock : String :=
  "Instructions for function calling:\n- When you need to use a function, write: CALL_FUNCTION: function_name(param1=\"value1\", param2=[\"item1\", \"item2\"])\n- Use proper Python syntax for parameters\n- After calling functions, provide a comprehensive response"

/-- The `full_prompt` f-string of src/travel.py lines 122-134. -/
def buildPrompt (systemPrompt toolDescs convHistory currentMsg : String) : String :=
  "System: " ++ systemPrompt ++ "\n\nAvailable Functions:\n" ++ toolDescs ++ "\n\n" ++
    instructionsBlock ++ "\n\n" ++ convHistory ++ "\n\nUser: " ++ currentMsg

/-- The fixed exhaustion message returned after the `for` loop. -/
def exhaustionMsg : String := "Maximum iterations reached. Please try a simpler request."

/-- The fixed fold-back instruction set as `current_message`. -/
def foldBackMsg : String :=
  "Based on the function results above, provide a comprehensive response to the original request."

/-- The prefix of the error string returned when the model call raises. -/
def modelErrPrefix : String := "Error generating response: "

/-- The outcome of one `query` call: the returned text, the agent state
after the call, and how many model calls were performed (an
instrumentation counter added by the embedding; the source performs
one `generate_content` call per loop iteration entered). -/
structure QueryResult where
  answer : String
  state : AgentState
  modelCalls : Nat

/-- The `for iteration in range(max_iterations)` loop of `BaseAgent.query`
(src/travel.py lines 121-163), with the remaining iteration budget as
the recursion fuel.  The external model is a function from the full
prompt to `Except`: `Except.error` models `generate_content` (or
`response.text`) raising, upon which the loop returns at once with
the descriptive error string — no retry, no further model call.  A
response whose parse yields no calls is returned verbatim; otherwise
all calls are executed, their rendered results folded back into the
conversation history, and the loop continues with the fixed fold-back
instruction.  Exhausted fuel yields the fixed exhaustion message. -/
def queryLoop (tools : List Tool) (model : String → Except String String)
    (systemPrompt : String) (now : Nat) :
    Nat → AgentState → String → String → QueryResult
  | 0, st, _, _ => QueryResult.mk exhaustionMsg st 0
  | fuel + 1, st, convHistory, currentMsg =>
    match model (buildPrompt systemPrompt (getFunctionDescriptions tools) convHistory currentMsg) with
    | Except.error e => QueryResult.mk (modelErrPrefix ++ e) st 1
    | Except.ok rt =>
      match parseFunctionCalls (tools.map Tool.name) rt with
      | [] => QueryResult.mk rt (AgentState.mk st.calls (st.responses ++ [rt])) 1
      | c :: rest =>
        let er := executeCalls tools now (AgentState.mk st.calls (st.responses ++ [rt])) (c :: rest)
        let q := queryLoop tools model systemPrompt now fuel er.2
          (convHistory ++ "\nAssistant: " ++ rt ++ "\n" ++ "Function Results:\n" ++
            String.intercalate ("\n") er.1 ++ "\n")
          foldBackMsg
        QueryResult.mk q.answer q.state (q.modelCalls + 1)

/-- `BaseAgent.query`: run the loop with an empty conversation history
and the caller's prompt as the first message. -/
def query (tools : List Tool) (model : String → Except String String)
    (systemPrompt : String) (now : Nat) (st : AgentState) (prompt : String)
    (maxIterations : Nat) : QueryResult :=
  queryLoop tools model systemPrompt now maxIterations st ("") prompt

/-- A sample tool that always succeeds (for concrete witnesses). -/
def echoTool : Tool :=
  Tool.mk ("echo") ("Echo tool.") [] (fun _ => Except.ok (Value.str ("ok")))

/-- A sample tool named `add` (for concrete witnesses). -/
def addTool : Tool :=
  Tool.mk ("add") ("Add tool.") [] (fun _ => Except.ok (Value.str ("sum")))

/-- A sample tool whose body always raises (for concrete witnesses). -/
def boomTool : Tool :=
  Tool.mk ("boom") ("Always fails.") [] (fun _ => Except.error ("division by zero"))

/-! ### Scanner lemmas -/

/-- The non-greedy capture never contains a closing parenthesis. -/
theorem takeUntilParen_no_paren :
    ∀ (cs args rest : List Char), takeUntilParen cs = some (args, rest) → ')' ∉ args := by
  intro cs
  induction cs with
  | nil => intro args rest h; simp [takeUntilParen] at h
  | cons c cs ih =>
    intro args rest h
    by_cases hc : c = ')'
    · subst hc
      simp [takeUntilParen] at h
      obtain ⟨h1, _⟩ := h
      subst h1
      exact List.not_mem_nil _
    · simp only [takeUntilParen, if_neg hc] at h
      cases h2 : takeUntilParen cs with
      | none => rw [h2] at h; simp at h
      | some p =>
        rw [h2] at h
        obtain ⟨a, r⟩ := p
        simp only [Option.map_some'] at h
        obtain ⟨h3, h4⟩ := Prod.mk.injEq .. ▸ (Option.some.inj h)
        subst h3
        intro hm
        rcases List.mem_cons.mp hm with h5 | h5
        · exact hc h5.symm
        · exact ih a r h2 h5

/-- A successful regex match captures an argument text free of `)`. -/
theorem tryMatch_no_paren (cs : List Char) (name : String) (args rest : List Char)
    (h : tryMatch cs = some (name, args, rest)) : ')' ∉ args := by
  unfold tryMatch at h
  cases h1 : dropPrefixL markerLit cs with
  | none => rw [h1] at h; simp at h
  | some cs1 =>
    rw [h1] at h
    simp only [] at h
    cases h2 : ((dropSpacesL cs1).span isWordChar).1 with
    | nil => rw [h2] at h; simp at h
    | cons w ws =>
      rw [h2] at h
      cases h3 : ((dropSpacesL cs1).span isWordChar).2 with
      | nil => rw [h3] at h; simp at h
      | cons c cs4 =>
        rw [h3] at h
        dsimp only at h
        by_cases hc : c = '('
        · rw [if_pos hc] at h
          cases h4 : takeUntilParen cs4 with
          | none => rw [h4] at h; simp at h
          | some p =>
            rw [h4] at h
            obtain ⟨a, r⟩ := p
            simp only [Option.some.injEq, Prod.mk.injEq] at h
            obtain ⟨-, h6, -⟩ := h
            subst h6
            exact takeUntilParen_no_paren cs4 a r h4
        · rw [if_neg hc] at h; simp at h

/-- A successful regex match begins with the literal marker token. -/
theorem dropPrefixL_eq (l : List Char) :
    ∀ (cs rest : List Char), dropPrefixL l cs = some rest → l ++ rest = cs := by
  induction l with
  | nil => intro cs rest h; simp [dropPrefixL] at h; simp [h]
  | cons p ps ih =>
    intro cs rest h
    cases cs with
    | nil => simp [dropPrefixL] at h
    | cons c cs2 =>
      simp only [dropPrefixL] at h
      by_cases hpc : p = c
      · rw [if_pos hpc] at h
        have h2 := ih cs2 rest h
        simp [hpc, h2]
      · rw [if_neg hpc] at h; simp at h

/-- If the regex matches at a position, the marker literal is a prefix of
the text at that position. -/
theorem tryMatch_marker_prefix (cs : List Char) (m : String × List Char × List Char)
    (h : tryMatch cs = some m) : markerLit <+: cs := by
  unfold tryMatch at h
  cases h1 : dropPrefixL markerLit cs with
  | none => rw [h1] at h; simp at h
  | some cs1 => exact ⟨cs1, dropPrefixL_eq markerLit cs cs1 h1⟩

/-- A text in which the marker token never occurs yields no matches. -/
theorem scanCalls_nil_of_no_marker :
    ∀ (fuel : Nat) (cs : List Char), ¬ (markerLit <:+: cs) → scanCalls fuel cs = [] := by
  intro fuel
  induction fuel with
  | zero => intro cs _; simp [scanCalls]
  | succ n ih =>
    intro cs hni
    cases cs with
    | nil => simp [scanCalls]
    | cons c rest =>
      have htm : tryMatch (c :: rest) = none := by
        cases h : tryMatch (c :: rest) with
        | none => rfl
        | some m =>
          exfalso
          apply hni
          obtain ⟨t, ht⟩ := tryMatch_marker_prefix (c :: rest) m h
          exact ⟨[], t, by simpa using ht⟩
      simp only [scanCalls, htm]
      apply ih
      intro hi
      apply hni
      obtain ⟨s, t, hst⟩ := hi
      exact ⟨c :: s, t, by simp [hst]⟩

/-- Members of the scan all have `)`-free captured argument texts. -/
theorem scanCalls_no_paren :
    ∀ (fuel : Nat) (cs : List Char) (name : String) (args : List Char),
      (name, args) ∈ scanCalls fuel cs → ')' ∉ args := by
  intro fuel
  induction fuel with
  | zero => intro cs name args h; simp [scanCalls] at h
  | succ n ih =>
    intro cs name args h
    cases cs with
    | nil => simp [scanCalls] at h
    | cons c rest =>
      rw [scanCalls] at h
      cases htm : tryMatch (c :: rest) with
      | none => rw [htm] at h; exact ih rest name args h
      | some m =>
        obtain ⟨nm, ar, r2⟩ := m
        rw [htm] at h
        rcases List.mem_cons.mp h with h5 | h5
        · obtain ⟨h6, h7⟩ := Prod.mk.injEq .. ▸ h5
          subst h6; subst h7
          exact tryMatch_no_paren (c :: rest) name args r2 htm
        · exact ih r2 name args h5

/-! ### Executor and loop lemmas -/

/-- The executor never touches the response log. -/
theorem executeFunction_responses (tools : List Tool) (now : Nat) (st : AgentState)
    (name : String) (args : Dict) :
    ((executeFunction tools now st name args).2).responses = st.responses := by
  unfold executeFunction
  cases findTool tools name with
  | none => rfl
  | some t =>
    dsimp only
    cases t.fn args with
    | ok r => rfl
    | error e => rfl

/-- Executing a batch of calls never touches the response log. -/
theorem executeCalls_responses (tools : List Tool) (now : Nat) :
    ∀ (cs : List ParsedCall) (st : AgentState),
      ((executeCalls tools now st cs).2).responses = st.responses := by
  intro cs
  induction cs with
  | nil => intro st; rfl
  | cons c rest ih =>
    intro st
    simp only [executeCalls]
    rw [ih ((executeFunction tools now st c.function c.parameters).2)]
    exact executeFunction_responses tools now st c.function c.parameters

/-- Unfolding of the loop when the model call raises: the descriptive
error string comes back at once, the state is untouched, and exactly
one model call was made. -/
theorem queryLoop_model_err (tools : List Tool) (model : String → Except String String)
    (sys : String) (now fuel : Nat) (st : AgentState) (ch cm e : String)
    (he : model (buildPrompt sys (getFunctionDescriptions tools) ch cm) = Except.error e) :
    queryLoop tools model sys now (fuel + 1) st ch cm =
      QueryResult.mk (modelErrPrefix ++ e) st 1 := by
  rw [queryLoop, he]

/-- Unfolding of the loop when the response parses to zero calls: the
response text is returned verbatim after exactly one model call, with
only the response log extended. -/
theorem queryLoop_no_calls (tools : List Tool) (model : String → Except String String)
    (sys : String) (now fuel : Nat) (st : AgentState) (ch cm r : String)
    (hr : model (buildPrompt sys (getFunctionDescriptions tools) ch cm) = Except.ok r)
    (hp : parseFunctionCalls (tools.map Tool.name) r = []) :
    queryLoop tools model sys now (fuel + 1) st ch cm =
      QueryResult.mk r (AgentState.mk st.calls (st.responses ++ [r])) 1 := by
  rw [queryLoop, hr]
  dsimp only
  rw [hp]

/-- Under a model whose every answer carries at least one registered
call, the loop spends its whole budget: the exhaustion message is
returned, one model call and one response-log append happen per unit
of budget. -/
theorem queryLoop_exhausts (tools : List Tool) (model : String → Except String String)
    (sys : String) (now : Nat)
    (h : ∀ p : String, ∃ r : String, model p = Except.ok r ∧
      parseFunctionCalls (tools.map Tool.name) r ≠ []) :
    ∀ (fuel : Nat) (st : AgentState) (ch cm : String),
      (queryLoop tools model sys now fuel st ch cm).answer = exhaustionMsg ∧
      (queryLoop tools model sys now fuel st ch cm).modelCalls = fuel ∧
      (queryLoop tools model sys now fuel st ch cm).state.responses.length =
        st.responses.length + fuel := by
  intro fuel
  induction fuel with
  | zero => intro st ch cm; exact ⟨rfl, rfl, rfl⟩
  | succ n ih =>
    intro st ch cm
    obtain ⟨r, hr, hne⟩ := h (buildPrompt sys (getFunctionDescriptions tools) ch cm)
    rw [queryLoop, hr]
    dsimp only
    cases hp : parseFunctionCalls (tools.map Tool.name) r with
    | nil => exact absurd hp hne
    | cons c rest =>
      dsimp only
      obtain ⟨ha, hm, hl⟩ := ih
        ((executeCalls tools now (AgentState.mk st.calls (st.responses ++ [r])) (c :: rest)).2)
        (ch ++ "\nAssistant: " ++ r ++ "\n" ++ "Function Results:\n" ++
          String.intercalate ("\n")
            ((executeCalls tools now (AgentState.mk st.calls (st.responses ++ [r])) (c :: rest)).1) ++ "\n")
        foldBackMsg
      refine ⟨ha, by rw [hm], ?_⟩
      rw [hl, executeCalls_responses]
      simp [Nat.add_assoc, Nat.add_comm 1 n]

/-! ### Claims -/

/-- C1, counterexample: calling the executor with a name absent from the
registry does return the structured missing-name error result, but —
contrary to the claim — appends no CallRecord at all: the unknown-name
branch returns before the history-appending `try` block is reached, so
the history is left unchanged (here, still empty). -/
theorem c1_counterexample :
    executeFunction [] 0 (AgentState.mk [] []) ("foo") [] =
      (ExecResult.err ("Function 'foo' not found"), AgentState.mk [] []) ∧
    ((executeFunction [] 0 (AgentState.mk [] []) ("foo") []).2).calls = [] :=
  ⟨rfl, rfl⟩

/-- C1, amended: for every call to the executor with a function name
absent from the registry, it returns the structured error result
carrying the missing-name message without raising, and the agent's
history is left completely unchanged — no CallRecord is appended for
the unknown-name path. -/
theorem c1_unknown_tool_no_record :
    ∀ (tools : List Tool) (now : Nat) (st : AgentState) (name : String) (args : Dict),
      findTool tools name = none →
      executeFunction tools now st name args =
        (ExecResult.err ("Function '" ++ name ++ "' not found"), st) := by
  intro tools now st name args h
  unfold executeFunction
  rw [h]

/-- Witness for C1 at a concrete input: a one-tool registry queried with
an unregistered name. -/
theorem c1_witness :
    executeFunction [addTool] 5 (AgentState.mk [] [("r")]) ("transmogrify") [] =
      (ExecResult.err ("Function 'transmogrify' not found"), AgentState.mk [] [("r")]) :=
  c1_unknown_tool_no_record [addTool] 5 (AgentState.mk [] [("r")]) ("transmogrify") [] rfl

/-- C2, counterexample: on the argument text `a=, b=["x","y"]` the
primary parse fails, and the fallback — which splits on every comma,
not only top-level ones — does NOT recover `b` as the whole list
`["x","y"]`; it maps `b` to the truncated raw string before the first
comma inside the brackets. -/
theorem c2_counterexample :
    evalDict (("a=, b=[\"x\",\"y\"]").data) = none ∧
    parseParametersS ("a=, b=[\"x\",\"y\"]") =
      [("a", Value.str ("")), ("b", Value.str ("[\"x"))] ∧
    List.lookup ("b") (parseParametersS ("a=, b=[\"x\",\"y\"]")) ≠
      some (Value.list [Value.str ("x"), Value.str ("y")]) := by
  refine ⟨rfl, rfl, ?_⟩
  intro h
  have h2 : List.lookup ("b") (parseParametersS ("a=, b=[\"x\",\"y\"]")) =
      some (Value.str ("[\"x")) := rfl
  rw [h2] at h
  exact Value.noConfusion (Option.some.inj h)

/-- C2, amended: the permissive fallback splits the argument text at
every comma, including commas inside a bracketed list, so a key whose
value is a bracketed list of several quoted strings is torn apart:
the key receives the quote-stripped fragment up to the first comma of
the list, and the later fragments, which contain no `=`, are dropped. -/
theorem c2_fallback_splits_inside_brackets :
    splitOnComma (("a=, b=[\"x\",\"y\"]").data) =
      [("a=").data, (" b=[\"x\"").data, ("\"y\"]").data] ∧
    parseParametersS ("a=, b=[\"x\",\"y\"]") =
      [("a", Value.str ("")), ("b", Value.str ("[\"x"))] :=
  ⟨rfl, rfl⟩

/-- C3: against a model whose every response carries at least one valid
call marker for a registered tool, `query` with budget `n` performs
exactly `n` model calls (never `n + 1`), records exactly `n`
responses (one execute/fold-back cycle per iteration), and returns
the fixed exhaustion message; for `max_iterations = 1` this means one
model call and one execute/fold-back cycle. -/
theorem c3_iteration_budget_exhausted :
    ∀ (tools : List Tool) (model : String → Except String String) (sys : String)
      (now : Nat) (st : AgentState) (prompt : String) (n : Nat),
      (∀ p : String, ∃ r : String, model p = Except.ok r ∧
        parseFunctionCalls (tools.map Tool.name) r ≠ []) →
      (query tools model sys now st prompt n).answer = exhaustionMsg ∧
      (query tools model sys now st prompt n).modelCalls = n ∧
      (query tools model sys now st prompt n).state.responses.length =
        st.responses.length + n := by
  intro tools model sys now st prompt n h
  unfold query
  exact queryLoop_exhausts tools model sys now h n st ("") prompt

/-- Witness for C3: a one-tool registry and a model that always answers
with `CALL_FUNCTION: echo()`, run with `max_iterations = 1`. -/
theorem c3_witness :
    (query [echoTool] (fun _ => Except.ok ("CALL_FUNCTION: echo()")) ("sys") 0
        (AgentState.mk [] []) ("hi") 1).answer = exhaustionMsg ∧
    (query [echoTool] (fun _ => Except.ok ("CALL_FUNCTION: echo()")) ("sys") 0
        (AgentState.mk [] []) ("hi") 1).modelCalls = 1 ∧
    (query [echoTool] (fun _ => Except.ok ("CALL_FUNCTION: echo()")) ("sys") 0
        (AgentState.mk [] []) ("hi") 1).state.responses.length = 1 := by
  have h := c3_iteration_budget_exhausted [echoTool]
    (fun _ => Except.ok ("CALL_FUNCTION: echo()")) ("sys") 0 (AgentState.mk [] []) ("hi") 1 ?hm
  · exact h
  case hm =>
    intro p
    refine ⟨("CALL_FUNCTION: echo()"), rfl, ?_⟩
    intro hc
    have he : parseFunctionCalls ([echoTool].map Tool.name) ("CALL_FUNCTION: echo()") =
        [ParsedCall.mk ("echo") []] := rfl
    rw [he] at hc
    exact List.cons_ne_nil _ _ hc

/-- C4: whenever the model call of a loop iteration raises, the loop
returns immediately with the descriptive error string as the final
answer — exactly one model call in that iteration, no retry, no
further model call, state untouched.  Stated over `queryLoop` with an
arbitrary accumulated transcript and message, which covers every
iteration of every `query` call; since `queryLoop` is a total
function, no failure path raises to the caller of `query`. -/
theorem c4_model_failure_fail_fast :
    ∀ (tools : List Tool) (model : String → Except String String) (sys : String)
      (now fuel : Nat) (st : AgentState) (ch cm e : String),
      model (buildPrompt sys (getFunctionDescriptions tools) ch cm) = Except.error e →
      queryLoop tools model sys now (fuel + 1) st ch cm =
        QueryResult.mk (modelErrPrefix ++ e) st 1 :=
  fun tools model sys now fuel st ch cm e he =>
    queryLoop_model_err tools model sys now fuel st ch cm e he

/-- Witness for C4: a model that always raises, with budget 3 remaining. -/
theorem c4_witness :
    queryLoop [addTool] (fun _ => Except.error ("quota exceeded")) ("sys") 0 3
      (AgentState.mk [] []) ("") ("hi") =
      QueryResult.mk (modelErrPrefix ++ "quota exceeded") (AgentState.mk [] []) 1 :=
  c4_model_failure_fail_fast [addTool] (fun _ => Except.error ("quota exceeded")) ("sys") 0 2
    (AgentState.mk [] []) ("") ("hi") ("quota exceeded") rfl

/-- C5: a response whose markers all name unregistered functions parses
to the empty call sequence (each candidate is dropped), and a query
whose first response is such a text treats it as final: the response
text itself is returned after exactly one model call, nothing is
executed, and no further iteration happens. -/
theorem c5_unregistered_call_dropped :
    (∀ (toolNames : List String) (text : String),
        (∀ m ∈ findCalls text, toolNames.contains m.1 = false) →
        parseFunctionCalls toolNames text = []) ∧
    parseFunctionCalls (["add"]) ("CALL_FUNCTION: foo(x=\"1\")") = [] ∧
    (∀ (tools : List Tool) (model : String → Except String String) (sys : String)
        (now : Nat) (st : AgentState) (prompt : String) (n : Nat) (r : String),
        model (buildPrompt sys (getFunctionDescriptions tools) ("") prompt) = Except.ok r →
        parseFunctionCalls (tools.map Tool.name) r = [] →
        query tools model sys now st prompt (n + 1) =
          QueryResult.mk r (AgentState.mk st.calls (st.responses ++ [r])) 1) := by
  refine ⟨?_, rfl, ?_⟩
  · intro toolNames text hall
    unfold parseFunctionCalls
    rw [List.filterMap_eq_nil_iff]
    intro m hm
    rw [hall m hm]
    rfl
  · intro tools model sys now st prompt n r hr hp
    unfold query
    exact queryLoop_no_calls tools model sys now n st ("") prompt r hr hp

/-- Witness for C5: registry containing only `add`, response naming the
unregistered `foo`. -/
theorem c5_witness :
    parseFunctionCalls (["add"]) ("CALL_FUNCTION: foo(x=\"1\")") = [] ∧
    query [addTool] (fun _ => Except.ok ("CALL_FUNCTION: foo(x=\"1\")")) ("sys") 0
        (AgentState.mk [] []) ("hi") 1 =
      QueryResult.mk ("CALL_FUNCTION: foo(x=\"1\")")
        (AgentState.mk [] [("CALL_FUNCTION: foo(x=\"1\")")]) 1 := by
  constructor
  · exact c5_unregistered_call_dropped.2.1
  · exact c5_unregistered_call_dropped.2.2 [addTool]
      (fun _ => Except.ok ("CALL_FUNCTION: foo(x=\"1\")")) ("sys") 0 (AgentState.mk [] [])
      ("hi") 0 ("CALL_FUNCTION: foo(x=\"1\")") rfl rfl

/-- C6: for `CALL_FUNCTION: add(a="1", b=["x","y"])` with `add`
registered, the primary (literal) path succeeds and the parser yields
exactly one call for `add` with argument mapping exactly
`a ↦ "1", b ↦ ["x","y"]`; the same holds when the argument payload
spans several lines, since the capture admits embedded line breaks. -/
theorem c6_primary_parse_exact :
    evalDict (("a=\"1\", b=[\"x\",\"y\"]").data) =
      some [("a", Value.str ("1")), ("b", Value.list [Value.str ("x"), Value.str ("y")])] ∧
    parseFunctionCalls (["add"]) ("CALL_FUNCTION: add(a=\"1\", b=[\"x\",\"y\"])") =
      [ParsedCall.mk ("add")
        [("a", Value.str ("1")), ("b", Value.list [Value.str ("x"), Value.str ("y")])]] ∧
    parseFunctionCalls (["add"]) ("CALL_FUNCTION: add(a=\"1\",\n  b=[\"x\",\"y\"])") =
      [ParsedCall.mk ("add")
        [("a", Value.str ("1")), ("b", Value.list [Value.str ("x"), Value.str ("y")])]] :=
  ⟨rfl, rfl, rfl⟩

/-- C7: executing a registered tool whose body raises yields the
structured error result whose message contains both the tool name and
the underlying exception message (it is exactly
`Error executing <name>: <message>`), appends exactly one CallRecord
with the error field populated and no result field, and — the
executor being a total function — lets no exception escape. -/
theorem c7_tool_exception_caught :
    ∀ (tools : List Tool) (now : Nat) (st : AgentState) (name : String) (args : Dict)
      (t : Tool) (e : String),
      findTool tools name = some t →
      t.fn args = Except.error e →
      executeFunction tools now st name args =
        (ExecResult.err ("Error executing " ++ name ++ ": " ++ e),
          AgentState.mk
            (st.calls ++ [CallRecord.mk name args none
              (some ("Error executing " ++ name ++ ": " ++ e)) now])
            st.responses) := by
  intro tools now st name args t e h1 h2
  unfold executeFunction
  rw [h1]
  dsimp only
  rw [h2]

/-- Witness for C7: a registry with one raising tool. -/
theorem c7_witness :
    executeFunction [boomTool] 7 (AgentState.mk [] []) ("boom") [] =
      (ExecResult.err ("Error executing boom: division by zero"),
        AgentState.mk
          [CallRecord.mk ("boom") [] none (some ("Error executing boom: division by zero")) 7]
          []) :=
  c7_tool_exception_caught [boomTool] 7 (AgentState.mk [] []) ("boom") [] boomTool
    ("division by zero") rfl rfl

/-- C8: a text in which the invocation-marker token never occurs parses
to the empty call sequence, and a query whose first response is such
a text returns that response verbatim as the final answer after
exactly one model call. -/
theorem c8_no_marker_verbatim :
    (∀ (toolNames : List String) (text : String), ¬ (markerLit <:+: text.data) →
        parseFunctionCalls toolNames text = []) ∧
    (∀ (tools : List Tool) (model : String → Except String String) (sys : String)
        (now : Nat) (st : AgentState) (prompt : String) (n : Nat) (r : String),
        model (buildPrompt sys (getFunctionDescriptions tools) ("") prompt) = Except.ok r →
        ¬ (markerLit <:+: r.data) →
        query tools model sys now st prompt (n + 1) =
          QueryResult.mk r (AgentState.mk st.calls (st.responses ++ [r])) 1) := by
  have hparse : ∀ (toolNames : List String) (text : String), ¬ (markerLit <:+: text.data) →
      parseFunctionCalls toolNames text = [] := by
    intro toolNames text hni
    unfold parseFunctionCalls findCalls
    rw [scanCalls_nil_of_no_marker text.data.length text.data hni]
    rfl
  refine ⟨hparse, ?_⟩
  intro tools model sys now st prompt n r hr hni
  unfold query
  exact queryLoop_no_calls tools model sys now n st ("") prompt r hr (hparse _ r hni)

/-- Witness for C8: a marker-free response text. -/
theorem c8_witness :
    parseFunctionCalls (["add"]) ("Hello there.") = [] ∧
    query [addTool] (fun _ => Except.ok ("Hello there.")) ("sys") 0
        (AgentState.mk [] []) ("hi") 1 =
      QueryResult.mk ("Hello there.") (AgentState.mk [] [("Hello there.")]) 1 := by
  constructor
  · exact c8_no_marker_verbatim.1 (["add"]) ("Hello there.") (by decide)
  · exact c8_no_marker_verbatim.2 [addTool] (fun _ => Except.ok ("Hello there."))
      ("sys") 0 (AgentState.mk [] []) ("hi") 0 ("Hello there.") rfl (by decide)

/-- C9: parameter parsing is a total function — every argument text
yields a mapping, no exception escapes (both tiers catch internally)
— and on the malformed text `a=1, b=` the primary parse fails while
the permissive fallback produces the best-effort mapping
`a ↦ "1", b ↦ ""` with whitespace and quotes stripped. -/
theorem c9_parameter_parsing_total :
    (∀ s : String, ∃ d : Dict, parseParametersS s = d) ∧
    evalDict (("a=1, b=").data) = none ∧
    parseParametersS ("a=1, b=") = [("a", Value.str ("1")), ("b", Value.str (""))] :=
  ⟨fun s => ⟨parseParametersS s, rfl⟩, rfl, rfl⟩

/-- C10: the captured raw argument text of any invocation marker never
contains a closing parenthesis — the capture stops at the first `)`
after the marker — and consequently for
`CALL_FUNCTION: f(a="(x)")`, whose quoted value contains `)`, the
capture is truncated to `a="(x` and the parsed mapping is
`a ↦ "(x"`, different from the full written arguments `a ↦ "(x)"`. -/
theorem c10_capture_stops_at_first_paren :
    (∀ (fuel : Nat) (cs : List Char) (name : String) (args : List Char),
        (name, args) ∈ scanCalls fuel cs → ')' ∉ args) ∧
    findCalls ("CALL_FUNCTION: f(a=\"(x)\")") = [(("f" : String), ("a=\"(x").data)] ∧
    parseFunctionCalls (["f"]) ("CALL_FUNCTION: f(a=\"(x)\")") =
      [ParsedCall.mk ("f") [("a", Value.str ("(x"))]] ∧
    parseFunctionCalls (["f"]) ("CALL_FUNCTION: f(a=\"(x)\")") ≠
      [ParsedCall.mk ("f") [("a", Value.str ("(x)"))]] := by
  refine ⟨scanCalls_no_paren, rfl, rfl, ?_⟩
  intro h
  have h2 : parseFunctionCalls (["f"]) ("CALL_FUNCTION: f(a=\"(x)\")") =
      [ParsedCall.mk ("f") [("a", Value.str ("(x"))]] := rfl
  rw [h2] at h
  injection h with h3 h4
  injection h3 with h5 h6
  injection h6 with h7 h8
  injection h7 with h9 h10
  injection h10 with h11
  exact absurd h11 (by decide)

/-- Witness for C10 at a concrete input: the captured argument text of
the marker in `CALL_FUNCTION: f(a="(x)")` contains no `)`. -/
theorem c10_witness : ')' ∉ (("a=\"(x").data) := by
  refine c10_capture_stops_at_first_paren.1 (("CALL_FUNCTION: f(a=\"(x)\")").data.length)
    (("CALL_FUNCTION: f(a=\"(x)\")").data) ("f") (("a=\"(x").data) ?_
  have h : scanCalls (("CALL_FUNCTION: f(a=\"(x)\")").data.length)
      (("CALL_FUNCTION: f(a=\"(x)\")").data) = [(("f" : String), ("a=\"(x").data)] := rfl
  rw [h]
  exact List.mem_singleton.mpr rfl
